import Mathlib

/-!
Shallow embedding of the dm-verity read-time integrity verification core
(drivers/md/dm-verity-target.c of the Huawei "venus" kernel tree).

Machine integers are modelled as Nat (sector_t and u64 arithmetic uses
explicit bounds checks mirroring the source's overflow tests); error codes
returned through `int r` are modelled as Int.  The external crypto shash
engines ("sha2ce" hardware engine and "sha256" software engine) are an
oracle `H : Eng → List Nat → Except Int (List Nat)` mapping the absorbed
byte sequence to a digest; dm-bufio, verity_fec_decode and the NV storage
used by restart mode are likewise oracle inputs, so that the control flow
of the verification core itself is modelled exactly.
-/

namespace DMVerity

/-- Block type tag passed to error handling, from enum verity_block_type. -/
inductive BlockType
  | data
  | metadata
deriving DecidableEq, Repr

/-- Corruption handling mode of the target, from enum verity_mode
(DM_VERITY_MODE_EIO / _LOGGING / _RESTART). -/
inductive Mode
  | eio
  | logging
  | restart
deriving DecidableEq, Repr

/-- The two interchangeable hash engines: tfm_sha2ce (primary, selected when
the retry count is 0) and tfm_sha256 (fallback, selected on retry). -/
inductive Eng
  | sha2ce
  | sha256
deriving DecidableEq, Repr

/-- Observable events of the verification core: a dm_bufio_read of a hash
block, a digest computation over a block's content, a verity_fec_decode
invocation, a verity_handle_err invocation, and the kobject uevent emitted
from inside verity_handle_err. -/
inductive Ev
  | readHash (blk : Nat)
  | hash (t : BlockType) (e : Eng)
  | fec (t : BlockType) (blk : Nat)
  | policy (t : BlockType) (blk : Nat)
  | uevent (t : BlockType) (blk : Nat)
deriving DecidableEq, Repr

/-- Immutable configuration of a dm-verity target (the fields of struct
dm_verity used by the verification paths). -/
structure VerityCfg where
  version : Nat
  salt : List Nat
  digest_size : Nat
  data_dev_block_bits : Nat
  hash_dev_block_bits : Nat
  hash_per_block_bits : Nat
  levels : Nat
  hash_level_block : List Nat
  root_digest : List Nat
  zero_digest : Option (List Nat)
  mode : Mode
deriving DecidableEq, Repr

/-- Mutable per-target state touched by verity_handle_err: the hash_failed
introspection flag, the corrupted_errs counter, and the verify_failed_flag
used by the CONFIG_DM_VERITY_HW_RETRY restart path. -/
structure VState where
  hash_failed : Bool
  corrupted_errs : Nat
  verify_failed_flag : Bool
deriving DecidableEq, Repr

/-- Hash oracle type: digest of an absorbed byte sequence under one engine,
or a negative error code on engine failure. -/
def HashOracle : Type := Eng → List Nat → Except Int (List Nat)

/-- State of a struct shash_desc as used here: the selected tfm and the byte
sequence absorbed so far. -/
structure ShashDesc where
  tfm : Eng
  absorbed : List Nat
deriving DecidableEq, Repr

/-- Embedding of verity_hash_init: selects tfm_sha256 when count is nonzero
and tfm_sha2ce when count is zero, initialises the desc, and absorbs the
salt first when version >= 1. -/
def verity_hash_init (v : VerityCfg) (count : Nat) : ShashDesc :=
  let tfm := if count ≠ 0 then Eng.sha256 else Eng.sha2ce
  let d : ShashDesc := ⟨tfm, []⟩
  if 1 ≤ v.version then ⟨tfm, d.absorbed ++ v.salt⟩ else d

/-- Embedding of verity_hash_update: absorbs further content bytes. -/
def verity_hash_update (d : ShashDesc) (data : List Nat) : ShashDesc :=
  ⟨d.tfm, d.absorbed ++ data⟩

/-- Embedding of verity_hash_final: absorbs the salt after the content when
version == 0, then produces the digest with the selected engine. -/
def verity_hash_final (v : VerityCfg) (H : HashOracle) (d : ShashDesc) :
    Except Int (List Nat) :=
  let d2 := if v.version = 0 then verity_hash_update d v.salt else d
  H d2.tfm d2.absorbed

/-- Embedding of verity_hash_sel_sha: init with the engine selected by
count, absorb the content, finalise. -/
def verity_hash_sel_sha (v : VerityCfg) (H : HashOracle) (data : List Nat)
    (count : Nat) : Except Int (List Nat) :=
  verity_hash_final v H (verity_hash_update (verity_hash_init v count) data)

/-- Embedding of verity_hash: always uses the primary engine (count 0). -/
def verity_hash (v : VerityCfg) (H : HashOracle) (data : List Nat) :
    Except Int (List Nat) :=
  verity_hash_sel_sha v H data 0

/-- Result of verity_handle_err: its int return value, the updated mutable
state, and the emitted events (the kobject uevent). -/
structure HandleErrOut where
  ret : Nat
  st : VState
  evs : List Ev
deriving DecidableEq, Repr

/-- Embedding of verity_handle_err.  DM_VERITY_MAX_CORRUPTED_ERRS = 100 and
DM_MAX_ERR_COUNT = 4 in the source.  The nv parameter is the value returned
by verity_read_nv in the CONFIG_DM_VERITY_HW_RETRY restart branch (negative
means the NV read failed). -/
def verity_handle_err (v : VerityCfg) (st : VState) (t : BlockType)
    (blk : Nat) (nv : Int) : HandleErrOut :=
  let st1 : VState := { st with hash_failed := true }
  if 100 ≤ st1.corrupted_errs then ⟨1, st1, []⟩
  else
    let st2 : VState := { st1 with corrupted_errs := st1.corrupted_errs + 1 }
    let evs := [Ev.uevent t blk]
    match v.mode with
    | Mode.logging => ⟨0, st2, evs⟩
    | Mode.restart =>
        if nv < 0 then ⟨0, st2, evs⟩
        else if nv = 4 then ⟨1, st2, evs⟩
        else ⟨0, { st2 with verify_failed_flag := true }, evs⟩
    | Mode.eio => ⟨1, st2, evs⟩

/-- A dm_bufio buffer holding one hash-device block, together with its
buffer_aux hash_verified flag. -/
structure Buf where
  data : List Nat
  hash_verified : Bool
deriving DecidableEq, Repr

/-- Embedding of dm_bufio_alloc_callback: a freshly created buffer has
hash_verified = 0. -/
def dm_bufio_alloc_callback (data : List Nat) : Buf :=
  ⟨data, false⟩

/-- Embedding of verity_position_at_level. -/
def verity_position_at_level (v : VerityCfg) (block : Nat) (level : Nat) :
    Nat :=
  block >>> (level * v.hash_per_block_bits)

/-- Embedding of verity_hash_at_level: the hash-device block number and the
byte offset of the digest inside it. -/
def verity_hash_at_level (v : VerityCfg) (block : Nat) (level : Nat) :
    Nat × Nat :=
  let position := verity_position_at_level v block level
  let hash_block := v.hash_level_block.getD level 0 +
    (position >>> v.hash_per_block_bits)
  let idx := position &&& ((1 <<< v.hash_per_block_bits) - 1)
  let offset :=
    if v.version = 0 then idx * v.digest_size
    else idx <<< (v.hash_dev_block_bits - v.hash_per_block_bits)
  (hash_block, offset)

/-- The digest_size bytes stored at a given byte offset of a hash block
(the memcpy at the end of verity_verify_level). -/
def storedDigest (v : VerityCfg) (data : List Nat) (offset : Nat) :
    List Nat :=
  (data.drop offset).take v.digest_size

/-- Oracle inputs consumed by one verity_verify_level call: the
dm_bufio_read result for the covering hash block, whether
verity_fec_decode succeeds on it, the buffer content after an in-place
FEC repair, and the NV value seen by restart-mode error handling. -/
structure LevelEnv where
  buf : Except Int Buf
  fec : Bool
  fecData : List Nat
  nv : Int

/-- Result of one verity_verify_level call: the int return value, the
updated want_digest buffer, the buffer's hash_verified flag after the
call, the updated error-handling state, and the event trace. -/
structure LevelOut where
  r : Int
  want : List Nat
  verified : Bool
  st : VState
  evs : List Ev

/-- Embedding of verity_verify_level.  The two-attempt retry loop at LABEL
is unrolled: attempt 0 hashes with tfm_sha2ce, a mismatch retries once with
tfm_sha256, a second mismatch tries verity_fec_decode once, and on FEC
failure verity_handle_err adjudicates (nonzero means return -EIO = -5,
zero means fall through to the digest copy with hash_verified left 0). -/
def verity_verify_level (v : VerityCfg) (H : HashOracle) (env : LevelEnv)
    (st : VState) (block : Nat) (level : Nat) (skip_unverified : Bool)
    (want : List Nat) : LevelOut :=
  let hb := verity_hash_at_level v block level
  let hash_block := hb.1
  let offset := hb.2
  match env.buf with
  | Except.error e => ⟨e, want, false, st, [Ev.readHash hash_block]⟩
  | Except.ok buf =>
    let rd := [Ev.readHash hash_block]
    if buf.hash_verified then
      ⟨0, storedDigest v buf.data offset, true, st, rd⟩
    else if skip_unverified then
      ⟨1, want, false, st, rd⟩
    else
      let e1 := rd ++ [Ev.hash BlockType.metadata Eng.sha2ce]
      match verity_hash_sel_sha v H buf.data 0 with
      | Except.error e => ⟨e, want, false, st, e1⟩
      | Except.ok d1 =>
        if d1 = want then
          ⟨0, storedDigest v buf.data offset, true, st, e1⟩
        else
          let e2 := e1 ++ [Ev.hash BlockType.metadata Eng.sha256]
          match verity_hash_sel_sha v H buf.data 1 with
          | Except.error e => ⟨e, want, false, st, e2⟩
          | Except.ok d2 =>
            if d2 = want then
              ⟨0, storedDigest v buf.data offset, true, st, e2⟩
            else
              let e3 := e2 ++ [Ev.fec BlockType.metadata hash_block]
              if env.fec then
                ⟨0, storedDigest v env.fecData offset, true, st, e3⟩
              else
                let h := verity_handle_err v st BlockType.metadata
                  hash_block env.nv
                let e4 := e3 ++ [Ev.policy BlockType.metadata hash_block]
                  ++ h.evs
                if h.ret ≠ 0 then
                  ⟨-5, want, false, h.st, e4⟩
                else
                  ⟨0, storedDigest v buf.data offset, false, h.st, e4⟩

/-- Result of verity_hash_for_block: the int return value, the digest
written for the data block, the is_zero output, the updated state and the
event trace. -/
structure HFBOut where
  r : Int
  digest : List Nat
  is_zero : Bool
  st : VState
  evs : List Ev

/-- Embedding of the descending for loop of verity_hash_for_block: called
with i = v.levels it verifies levels i-1 down to 0, threading want_digest
and stopping at the first nonzero return. -/
def verify_chain (v : VerityCfg) (H : HashOracle) (lv : Nat → LevelEnv)
    (block : Nat) : Nat → List Nat → VState →
    Int × List Nat × VState × List Ev
  | 0, digest, st => (0, digest, st, [])
  | i + 1, digest, st =>
    let o := verity_verify_level v H (lv i) st block i false digest
    if o.r ≠ 0 then (o.r, o.want, o.st, o.evs)
    else
      let rest := verify_chain v H lv block i o.want o.st
      (rest.1, rest.2.1, rest.2.2.1, o.evs ++ rest.2.2.2)

/-- The is_zero computation at the out label of verity_hash_for_block. -/
def hfb_is_zero (v : VerityCfg) (r : Int) (digest : List Nat) : Bool :=
  if r = 0 then
    match v.zero_digest with
    | some z => decide (z = digest)
    | none => false
  else false

/-- Embedding of verity_hash_for_block.  With levels nonzero it first tries
the verified level-0 shortcut (skip_unverified = true); a return of 1 falls
back to full chain verification starting from the root digest.  lv gives
the oracle inputs for each tree level; digest0 is the incoming content of
the want-digest buffer. -/
def verity_hash_for_block (v : VerityCfg) (H : HashOracle)
    (lv : Nat → LevelEnv) (st : VState) (block : Nat) (digest0 : List Nat) :
    HFBOut :=
  if v.levels ≠ 0 then
    let o := verity_verify_level v H (lv 0) st block 0 true digest0
    if o.r ≤ 0 then
      ⟨o.r, o.want, hfb_is_zero v o.r o.want, o.st, o.evs⟩
    else
      let c := verify_chain v H lv block v.levels v.root_digest o.st
      ⟨c.1, c.2.1, hfb_is_zero v c.1 c.2.1, c.2.2.1, o.evs ++ c.2.2.2⟩
  else
    let c := verify_chain v H lv block v.levels v.root_digest st
    ⟨c.1, c.2.1, hfb_is_zero v c.1 c.2.1, c.2.2.1, c.2.2.2⟩

/-- Size in bytes of one data block. -/
def blockSize (v : VerityCfg) : Nat := 1 <<< v.data_dev_block_bits

/-- Oracle inputs consumed while verifying one data block of a request:
per-attempt (0 or 1) and per-level inputs for verity_hash_for_block,
whether verity_fec_decode succeeds on the data block, the corrected
content it produces, and the NV value for restart-mode error handling. -/
structure IoBlockEnv where
  lv : Nat → Nat → LevelEnv
  fec : Bool
  fecData : List Nat
  nv : Int

/-- Result of verifying one data block inside verity_verify_io: the int
outcome (0 continues the loop), the updated state, the block's bytes as
delivered to the caller, the position of io->iter afterwards, and the
event trace. -/
structure IoOut where
  r : Int
  st : VState
  data : List Nat
  iter : Nat
  evs : List Ev

/-- Embedding of one iteration of the per-block loop of verity_verify_io,
with the goto LABEL retry unrolled.  dataContent is the blockSize bytes of
the request covered by this block and iter the byte position of io->iter.
Attempt 0 hashes the data with tfm_sha2ce and advances io->iter; the retry
re-runs verity_hash_for_block, rewinds to the saved cursor (io->iter is
not advanced again) and hashes with tfm_sha256; then one verity_fec_decode
and finally verity_handle_err (nonzero means return -EIO = -5).  An
is_zero outcome zero-fills one block's worth of bytes at io->iter and
advances it (on the retry path those bytes lie beyond this block, so
dataContent is returned unchanged there). -/
def verity_verify_io_block (v : VerityCfg) (H : HashOracle)
    (env : IoBlockEnv) (st : VState) (block : Nat) (dataContent : List Nat)
    (iter : Nat) : IoOut :=
  let o0 := verity_hash_for_block v H (env.lv 0) st block
    (List.replicate v.digest_size 0)
  if o0.r < 0 then ⟨o0.r, o0.st, dataContent, iter, o0.evs⟩
  else if o0.is_zero then
    ⟨0, o0.st, List.replicate (blockSize v) 0, iter + blockSize v, o0.evs⟩
  else
    let evs0 := o0.evs ++ [Ev.hash BlockType.data Eng.sha2ce]
    let iter1 := iter + blockSize v
    match verity_hash_sel_sha v H dataContent 0 with
    | Except.error e => ⟨e, o0.st, dataContent, iter1, evs0⟩
    | Except.ok rd0 =>
      if rd0 = o0.digest then ⟨0, o0.st, dataContent, iter1, evs0⟩
      else
        let o1 := verity_hash_for_block v H (env.lv 1) o0.st block o0.digest
        let evs1 := evs0 ++ o1.evs
        if o1.r < 0 then ⟨o1.r, o1.st, dataContent, iter1, evs1⟩
        else if o1.is_zero then
          ⟨0, o1.st, dataContent, iter1 + blockSize v, evs1⟩
        else
          let evs2 := evs1 ++ [Ev.hash BlockType.data Eng.sha256]
          match verity_hash_sel_sha v H dataContent 1 with
          | Except.error e => ⟨e, o1.st, dataContent, iter1, evs2⟩
          | Except.ok rd1 =>
            if rd1 = o1.digest then ⟨0, o1.st, dataContent, iter1, evs2⟩
            else
              let evs3 := evs2 ++ [Ev.fec BlockType.data block]
              if env.fec then ⟨0, o1.st, env.fecData, iter1, evs3⟩
              else
                let h := verity_handle_err v o1.st BlockType.data block
                  env.nv
                let evs4 := evs3 ++ [Ev.policy BlockType.data block]
                  ++ h.evs
                if h.ret ≠ 0 then ⟨-5, h.st, dataContent, iter1, evs4⟩
                else ⟨0, h.st, dataContent, iter1, evs4⟩

/-- Embedding of the block loop of verity_verify_io over io->n_blocks
blocks starting at io->block, threading state and io->iter; any nonzero
per-block outcome is returned immediately. -/
def verity_verify_io (v : VerityCfg) (H : HashOracle)
    (env : Nat → IoBlockEnv) (dataOf : Nat → List Nat) (block0 : Nat) :
    Nat → Nat → VState → Nat → Int × VState × Nat × List Ev
  | _, 0, st, iter => (0, st, iter, [])
  | b, n + 1, st, iter =>
    let o := verity_verify_io_block v H (env b) st (block0 + b) (dataOf b)
      iter
    if o.r ≠ 0 then (o.r, o.st, o.iter, o.evs)
    else
      let rest := verity_verify_io v H env dataOf block0 (b + 1) n o.st
        o.iter
      (rest.1, rest.2.1, rest.2.2.1, o.evs ++ rest.2.2.2)

/-- Fuel-driven helper for fls. -/
def fls_aux : Nat → Nat → Nat
  | _, 0 => 0
  | n, fuel + 1 => if 2 ≤ n then fls_aux (n / 2) fuel + 1 else 0

/-- Embedding of __fls on unsigned long: the bit index of the most
significant set bit, i.e. the floor of log2 for nonzero arguments.  Fuel
64 is exact for every 64-bit value. -/
def fls (n : Nat) : Nat := fls_aux n 64

/-- Errors of the geometry-deriving tail of verity_ctr. -/
inductive CtrError
  | digestTooBig
  | tooManyLevels
  | hashOffsetOverflow
deriving DecidableEq, Repr

/-- Embedding of the while loop of verity_ctr that derives v->levels:
starting from l, keep incrementing while hash_per_block_bits * l < 64 and
(data_blocks - 1) >> (hash_per_block_bits * l) is nonzero.  The loop runs
at most 64 further iterations whenever hpb >= 1, so fuel 65 from l = 0 is
exact for every configuration the constructor accepts. -/
def levels_loop (hpb dbm1 : Nat) : Nat → Nat → Nat
  | l, 0 => l
  | l, fuel + 1 =>
    if hpb * l < 64 ∧ dbm1 >>> (hpb * l) ≠ 0 then
      levels_loop hpb dbm1 (l + 1) fuel
    else l

/-- The derived v->levels of verity_ctr (0 when data_blocks is 0). -/
def ctr_levels (hpb data_blocks : Nat) : Nat :=
  if data_blocks = 0 then 0 else levels_loop hpb (data_blocks - 1) 0 65

/-- Embedding of the descending for loop of verity_ctr that lays out
hash_level_block: called with i = levels it assigns levels i-1 down to 0.
Returns the per-level starting blocks (index = level) and the final
hash_position (v->hash_blocks); the u64 wrap test
hash_position + s < hash_position is modelled as the sum reaching 2^64. -/
def hash_level_loop (db hpb : Nat) : Nat → Nat →
    Except CtrError (List Nat × Nat)
  | pos, 0 => Except.ok ([], pos)
  | pos, i + 1 =>
    let s := (db + (1 <<< ((i + 1) * hpb)) - 1) >>> ((i + 1) * hpb)
    if 2 ^ 64 ≤ pos + s then Except.error CtrError.hashOffsetOverflow
    else
      match hash_level_loop db hpb (pos + s) i with
      | Except.error e => Except.error e
      | Except.ok (rest, fin) => Except.ok (rest ++ [pos], fin)

/-- The geometry fields derived by verity_ctr. -/
structure Geom where
  hash_per_block_bits : Nat
  levels : Nat
  hash_level_block : List Nat
  hash_blocks : Nat
deriving DecidableEq, Repr

/-- The hash_per_block_bits derivation of verity_ctr:
__fls(hash_block_size / digest_size), the floor of log2. -/
def ctr_hpb (hash_dev_block_bits digest_size : Nat) : Nat :=
  fls ((1 <<< hash_dev_block_bits) / digest_size)

/-- Embedding of the geometry-deriving tail of verity_ctr: the digest-size
check against the hash block size, the levels loop with its
DM_VERITY_MAX_LEVELS bound (passed in as maxLevels), and the
hash_level_block layout loop with its overflow check. -/
def verity_ctr_geometry (hash_dev_block_bits digest_size data_blocks
    hash_start maxLevels : Nat) : Except CtrError Geom :=
  if (1 <<< hash_dev_block_bits) < digest_size * 2 then
    Except.error CtrError.digestTooBig
  else
    let hpb := ctr_hpb hash_dev_block_bits digest_size
    let levels := ctr_levels hpb data_blocks
    if maxLevels < levels then Except.error CtrError.tooManyLevels
    else
      match hash_level_loop data_blocks hpb hash_start levels with
      | Except.error e => Except.error e
      | Except.ok (blocks, fin) => Except.ok ⟨hpb, levels, blocks, fin⟩

/-- True on the events that act on a data block's own content: data-block
digest computations, data-block FEC attempts and data-block policy
consultations. -/
def isDataCore : Ev → Bool
  | Ev.hash BlockType.data _ => true
  | Ev.fec BlockType.data _ => true
  | Ev.policy BlockType.data _ => true
  | _ => false

/-- True on the events that act on a hash-tree block's own content. -/
def isMetaCore : Ev → Bool
  | Ev.hash BlockType.metadata _ => true
  | Ev.fec BlockType.metadata _ => true
  | Ev.policy BlockType.metadata _ => true
  | _ => false

/-- The exit predicate of the levels loop of verity_ctr: level count l
already covers data_blocks - 1, or the 64-bit shift bound is reached. -/
def levelsDone (hpb dbm1 l : Nat) : Prop :=
  64 ≤ hpb * l ∨ dbm1 >>> (hpb * l) = 0

instance (hpb dbm1 l : Nat) : Decidable (levelsDone hpb dbm1 l) := by
  unfold levelsDone; infer_instance

/-- A concrete logging-mode configuration used to instantiate theorems. -/
def cfgLogging : VerityCfg :=
  ⟨1, [], 1, 2, 2, 1, 0, [], [7], some [7], Mode.logging⟩

/-- A trivial hash oracle used to instantiate theorems. -/
def oracle0 : HashOracle := fun _ _ => Except.ok []

/-- A trivial per-level oracle environment used to instantiate theorems. -/
def lv0 : Nat → LevelEnv := fun _ => ⟨Except.error (-5), false, [], 0⟩

/-- A fresh error-handling state used to instantiate theorems. -/
def st0 : VState := ⟨false, 0, false⟩

/-- A configuration with one tree level used to instantiate theorems. -/
def cfgV : VerityCfg :=
  ⟨1, [], 1, 2, 2, 1, 1, [0], [7], none, Mode.logging⟩

/-- A hash oracle whose two engines return distinct constant digests,
used to instantiate mismatch scenarios. -/
def oracleMismatch : HashOracle := fun e _ =>
  Except.ok (match e with | Eng.sha2ce => [1] | Eng.sha256 => [2])

/-- An unverified concrete buffer used to instantiate theorems. -/
def bufU : Buf := ⟨[5, 6], false⟩

/-- A level environment holding bufU with FEC repair failing. -/
def envU : LevelEnv := ⟨Except.ok bufU, false, [], 0⟩

/-- A concrete io-block environment used to instantiate theorems. -/
def ioEnv0 : IoBlockEnv := ⟨fun _ => lv0, false, [], 0⟩

end DMVerity

namespace DMVerity

/-- C1: in the geometry with 4 KiB data and hash blocks, 32-byte digests
and 1024 data blocks the constructor derives levels = 2, but it assigns
hash_level_block[0] = hash_start + 1 (hash_start plus the single block of
level 1, ceil(1024/128^2)), not hash_start + 8 as claimed: at hash_start =
0 the computed layout is [1, 0] and 1 differs from 0 + 8. -/
theorem C1_levelBlockOffset_counterexample :
    verity_ctr_geometry 12 32 1024 0 63 =
      Except.ok ⟨7, 2, [1, 0], 9⟩ ∧ (1 : Nat) ≠ 0 + 8 := by
  exact ⟨rfl, by decide⟩

/-- C1 (amended): with 4 KiB data and hash blocks, 32-byte digests and 1024
data blocks, the constructor derives hash_per_block_bits = 7 and levels =
2, and lays out hash_level_block[1] = hash_start and hash_level_block[0] =
hash_start + 1 (hash_start plus ceil(1024/128^2), the single block of
level 1); the 8 blocks of level 0 then end at hash_blocks =
hash_start + 9. -/
theorem C1_levelBlockOffset (hs : Nat) (h : hs + 9 < 2 ^ 64) :
    verity_ctr_geometry 12 32 1024 hs 63 =
      Except.ok ⟨7, 2, [hs + 1, hs], hs + 9⟩ := by
  have hpb : ctr_hpb 12 32 = 7 := by decide
  have hlev : ctr_levels 7 1024 = 2 := by decide
  unfold verity_ctr_geometry
  rw [if_neg (by decide)]
  simp only [hpb, hlev]
  rw [if_neg (by decide)]
  have hl : hash_level_loop 1024 7 hs 2 = Except.ok ([hs + 1, hs], hs + 9) := by
    simp only [hash_level_loop]
    have s1 : (1024 + 1 <<< ((1 + 1) * 7) - 1) >>> ((1 + 1) * 7) = 1 := by decide
    have s0 : (1024 + 1 <<< ((0 + 1) * 7) - 1) >>> ((0 + 1) * 7) = 8 := by decide
    simp only [s1, s0]
    rw [if_neg (by omega), if_neg (by omega)]
    simp [Nat.add_assoc]
  rw [hl]

/-- Witness for C1_levelBlockOffset at hash_start = 0. -/
theorem C1_levelBlockOffset_witness :
    0 + 9 < 2 ^ 64 ∧
    verity_ctr_geometry 12 32 1024 0 63 =
      Except.ok ⟨7, 2, [0 + 1, 0], 0 + 9⟩ :=
  ⟨by decide, C1_levelBlockOffset 0 (by decide)⟩

/-- C3: with the policy mode set to Logging, verity_handle_err returns 0
(Continue) on every call made while corrupted_errs is below
DM_VERITY_MAX_CORRUPTED_ERRS = 100, and returns 1 (Fail) on every call
made once the counter has reached 100. -/
theorem C3_logging_policy (v : VerityCfg) (st : VState) (t : BlockType)
    (blk : Nat) (nv : Int) (hm : v.mode = Mode.logging) :
    (st.corrupted_errs < 100 → (verity_handle_err v st t blk nv).ret = 0) ∧
    (100 ≤ st.corrupted_errs → (verity_handle_err v st t blk nv).ret = 1) := by
  unfold verity_handle_err
  rw [hm]
  constructor
  · intro h
    rw [if_neg (by simp; omega)]
  · intro h
    rw [if_pos (by simpa using h)]

/-- Witness for C3_logging_policy below and at the maximum. -/
theorem C3_logging_policy_witness :
    (verity_handle_err cfgLogging ⟨false, 0, false⟩ BlockType.data 3 0).ret
      = 0 ∧
    (verity_handle_err cfgLogging ⟨false, 100, false⟩ BlockType.data 3
      0).ret = 1 :=
  ⟨(C3_logging_policy cfgLogging ⟨false, 0, false⟩ BlockType.data 3 0
      rfl).1 (by decide),
   (C3_logging_policy cfgLogging ⟨false, 100, false⟩ BlockType.data 3 0
      rfl).2 (by decide)⟩

/-- C6: an invocation of verity_handle_err made after corrupted_errs has
reached the maximum of 100 emits no uevent at all (the function returns
before the kobject_uevent_env call), refuting the claim that every
invocation emits an external notification event. -/
theorem C6_uevent_counterexample :
    (verity_handle_err cfgLogging ⟨false, 100, false⟩ BlockType.data 5
      0).evs = [] := by
  decide

/-- C6 (amended): every invocation of verity_handle_err sets the
hash_failed introspection flag, but the uevent carrying the block type and
number is emitted exactly on the invocations made while corrupted_errs is
still below the maximum of 100; calls made after the counter has reached
100 return before emitting anything. -/
theorem C6_hash_failed_uevent (v : VerityCfg) (st : VState) (t : BlockType)
    (blk : Nat) (nv : Int) :
    (verity_handle_err v st t blk nv).st.hash_failed = true ∧
    (st.corrupted_errs < 100 →
      (verity_handle_err v st t blk nv).evs = [Ev.uevent t blk]) ∧
    (100 ≤ st.corrupted_errs → (verity_handle_err v st t blk nv).evs = []) := by
  simp only [verity_handle_err]
  by_cases hc : 100 ≤ st.corrupted_errs
  · rw [if_pos hc]
    exact ⟨rfl, fun h => absurd hc (by omega), fun _ => rfl⟩
  · rw [if_neg hc]
    refine ⟨?_, fun _ => ?_, fun h => absurd h hc⟩ <;>
      cases v.mode <;> simp only [] <;>
      (try split) <;> (try split) <;> rfl

/-- Witness for C6_hash_failed_uevent at a counter value below the
maximum. -/
theorem C6_hash_failed_uevent_witness :
    (verity_handle_err cfgLogging ⟨false, 7, false⟩ BlockType.metadata 11
      2).st.hash_failed = true ∧
    (verity_handle_err cfgLogging ⟨false, 7, false⟩ BlockType.metadata 11
      2).evs = [Ev.uevent BlockType.metadata 11] :=
  ⟨(C6_hash_failed_uevent cfgLogging ⟨false, 7, false⟩ BlockType.metadata
      11 2).1,
   (C6_hash_failed_uevent cfgLogging ⟨false, 7, false⟩ BlockType.metadata
      11 2).2.1 (by decide)⟩

/-- C8: the digest computation absorbs the salt before the content when
the format version is at least 1 and after the content when the version is
0, and the absorbed byte sequence handed to the engine does not depend on
which engine the retry count selects, so the salt placement rule is
identical for the primary (tfm_sha2ce, count 0) and fallback (tfm_sha256,
count nonzero) engines. -/
theorem C8_salt_placement (v : VerityCfg) (H : HashOracle)
    (data : List Nat) (count : Nat) :
    verity_hash_sel_sha v H data count =
      H (if count ≠ 0 then Eng.sha256 else Eng.sha2ce)
        (if 1 ≤ v.version then v.salt ++ data else data ++ v.salt) := by
  unfold verity_hash_sel_sha verity_hash_final verity_hash_update
    verity_hash_init
  by_cases h1 : 1 ≤ v.version
  · rw [if_pos h1, if_neg (by omega)]
    simp [h1]
  · rw [if_neg h1, if_pos (by omega)]
    simp [h1]

/-- The levels loop of verity_ctr returns the first level at or above its
starting point satisfying the exit predicate, provided the fuel covers the
remaining distance to the 64-bit shift bound. -/
theorem levels_loop_spec (hpb dbm1 : Nat) (hh : 1 ≤ hpb) :
    ∀ fuel l, 64 ≤ hpb * l + fuel →
      l ≤ levels_loop hpb dbm1 l fuel ∧
      levelsDone hpb dbm1 (levels_loop hpb dbm1 l fuel) ∧
      ∀ k, l ≤ k → k < levels_loop hpb dbm1 l fuel →
        ¬ levelsDone hpb dbm1 k := by
  intro fuel
  induction fuel with
  | zero =>
    intro l hl
    have h0 : levels_loop hpb dbm1 l 0 = l := rfl
    rw [h0]
    exact ⟨le_refl l, Or.inl (by omega), fun k hk1 hk2 => by omega⟩
  | succ n ih =>
    intro l hl
    by_cases hc : hpb * l < 64 ∧ dbm1 >>> (hpb * l) ≠ 0
    · have hstep : levels_loop hpb dbm1 l (n + 1) =
        levels_loop hpb dbm1 (l + 1) n := by
        simp only [levels_loop]
        rw [if_pos hc]
      have hmul : hpb * (l + 1) = hpb * l + hpb := by ring
      have hfuel : 64 ≤ hpb * (l + 1) + n := by omega
      obtain ⟨ha, hb, hmin⟩ := ih (l + 1) hfuel
      rw [hstep]
      refine ⟨by omega, hb, fun k hk1 hk2 => ?_⟩
      rcases Nat.eq_or_lt_of_le hk1 with heq | hlt
      · subst heq
        unfold levelsDone
        push_neg
        exact ⟨by omega, hc.2⟩
      · exact hmin k (by omega) hk2
    · have hstep : levels_loop hpb dbm1 l (n + 1) = l := by
        simp only [levels_loop]
        rw [if_neg hc]
      rw [hstep]
      refine ⟨le_refl l, ?_, fun k hk1 hk2 => by omega⟩
      unfold levelsDone
      by_cases h64 : 64 ≤ hpb * l
      · exact Or.inl h64
      · refine Or.inr ?_
        by_contra hz
        exact hc ⟨by omega, hz⟩

/-- The fls of any value at least 2 is at least 1. -/
theorem fls_ge_one (n : Nat) (h : 2 ≤ n) : 1 ≤ fls n := by
  unfold fls fls_aux
  rw [if_pos h]
  omega

/-- C7: for every configuration with at least one data block whose digest
size passes the constructor's fit check, the derived level count is the
smallest L with hash_per_block_bits * L at least 64 or
(data_blocks - 1) >> (hash_per_block_bits * L) equal to 0, and the
constructor fails with tooManyLevels whenever this L exceeds the maximum
supported tree depth. -/
theorem C7_levels_minimal (bits ds db hs maxL : Nat) (hds : 1 ≤ ds)
    (hdb : 1 ≤ db) (hfit : ds * 2 ≤ 1 <<< bits) :
    ((64 ≤ ctr_hpb bits ds * ctr_levels (ctr_hpb bits ds) db ∨
      (db - 1) >>>
        (ctr_hpb bits ds * ctr_levels (ctr_hpb bits ds) db) = 0) ∧
     (∀ k, k < ctr_levels (ctr_hpb bits ds) db →
       ¬ (64 ≤ ctr_hpb bits ds * k ∨
          (db - 1) >>> (ctr_hpb bits ds * k) = 0))) ∧
    (maxL < ctr_levels (ctr_hpb bits ds) db →
      verity_ctr_geometry bits ds db hs maxL =
        Except.error CtrError.tooManyLevels) := by
  have hq : 2 ≤ (1 <<< bits) / ds := by
    rw [Nat.le_div_iff_mul_le (by omega)]
    omega
  have hh : 1 ≤ ctr_hpb bits ds := fls_ge_one _ hq
  have hL : ctr_levels (ctr_hpb bits ds) db =
      levels_loop (ctr_hpb bits ds) (db - 1) 0 65 := by
    unfold ctr_levels
    rw [if_neg (by omega)]
  obtain ⟨ha, hb, hmin⟩ :=
    levels_loop_spec (ctr_hpb bits ds) (db - 1) hh 65 0 (by omega)
  refine ⟨⟨?_, ?_⟩, ?_⟩
  · rw [hL]; exact hb
  · intro k hk
    rw [hL] at hk
    exact hmin k (Nat.zero_le k) hk
  · intro hmax
    unfold verity_ctr_geometry
    rw [if_neg (by omega)]
    simp only []
    rw [if_pos hmax]

/-- Witness for C7_levels_minimal at the concrete geometry of the spec's
scenario with a maximum depth of 1. -/
theorem C7_levels_minimal_witness :
    (1 ≤ 32 ∧ 1 ≤ 1024 ∧ 32 * 2 ≤ 1 <<< 12) ∧
    (((64 ≤ ctr_hpb 12 32 * ctr_levels (ctr_hpb 12 32) 1024 ∨
       (1024 - 1) >>>
         (ctr_hpb 12 32 * ctr_levels (ctr_hpb 12 32) 1024) = 0) ∧
      (∀ k, k < ctr_levels (ctr_hpb 12 32) 1024 →
        ¬ (64 ≤ ctr_hpb 12 32 * k ∨
           (1024 - 1) >>> (ctr_hpb 12 32 * k) = 0))) ∧
     (1 < ctr_levels (ctr_hpb 12 32) 1024 →
       verity_ctr_geometry 12 32 1024 0 1 =
         Except.error CtrError.tooManyLevels)) :=
  ⟨⟨by decide, by decide, by decide⟩,
   C7_levels_minimal 12 32 1024 0 1 (by decide) (by decide) (by decide)⟩

/-- Unfolding equation of the levels loop for one unit of fuel. -/
theorem levels_loop_succ (hpb dbm1 l fuel : Nat) :
    levels_loop hpb dbm1 l (fuel + 1) =
      if hpb * l < 64 ∧ dbm1 >>> (hpb * l) ≠ 0 then
        levels_loop hpb dbm1 (l + 1) fuel
      else l := rfl

/-- The levels loop never returns below its starting level. -/
theorem levels_loop_le (hpb dbm1 : Nat) :
    ∀ fuel l, l ≤ levels_loop hpb dbm1 l fuel := by
  intro fuel
  induction fuel with
  | zero => intro l; exact le_refl l
  | succ n ih =>
    intro l
    rw [levels_loop_succ]
    split
    · exact le_trans (Nat.le_succ l) (ih (l + 1))
    · exact le_refl l

/-- C10: with a zero-level tree — which the constructor derives exactly
when there is at most one data block — verity_hash_for_block succeeds
deterministically with return value 0, hands back the root digest itself
as the expected digest, performs no hash-device read and leaves the
error-handling state untouched, so the data block is compared directly
against the root digest. -/
theorem C10_levels_zero (v : VerityCfg) (H : HashOracle)
    (lv : Nat → LevelEnv) (st : VState) (block : Nat)
    (digest0 : List Nat) (hz : v.levels = 0) :
    verity_hash_for_block v H lv st block digest0 =
      ⟨0, v.root_digest, hfb_is_zero v 0 v.root_digest, st, []⟩ ∧
    ∀ hpb db : Nat, ctr_levels hpb db = 0 ↔ db ≤ 1 := by
  constructor
  · unfold verity_hash_for_block
    rw [hz]
    simp [verify_chain]
  · intro hpb db
    match db with
    | 0 => simp [ctr_levels]
    | 1 =>
      have h1 : ctr_levels hpb 1 = 0 := by
        unfold ctr_levels
        rw [if_neg (by omega)]
        rw [show (65 : Nat) = 64 + 1 from rfl, levels_loop_succ]
        rw [if_neg (by simp)]
      simp [h1]
    | n + 2 =>
      have h2 : ctr_levels hpb (n + 2) = levels_loop hpb (n + 1) 1 64 := by
        unfold ctr_levels
        rw [if_neg (by omega)]
        rw [show (65 : Nat) = 64 + 1 from rfl, levels_loop_succ]
        rw [if_pos ⟨by omega, by simp⟩]
        norm_num
      have h3 : 1 ≤ levels_loop hpb (n + 1) 1 64 := levels_loop_le _ _ 64 1
      constructor
      · intro h
        rw [h2] at h
        omega
      · intro h
        omega

/-- Witness for C10_levels_zero on a concrete zero-level configuration. -/
theorem C10_levels_zero_witness :
    cfgLogging.levels = 0 ∧
    (verity_hash_for_block cfgLogging oracle0 lv0 st0 9 [] =
      ⟨0, cfgLogging.root_digest,
        hfb_is_zero cfgLogging 0 cfgLogging.root_digest, st0, []⟩ ∧
     ∀ hpb db : Nat, ctr_levels hpb db = 0 ↔ db ≤ 1) :=
  ⟨rfl, C10_levels_zero cfgLogging oracle0 lv0 st0 9 [] rfl⟩

end DMVerity

namespace DMVerity

/-- The event list of verity_handle_err is empty or a single uevent. -/
theorem verity_handle_err_evs (v : VerityCfg) (st : VState) (t : BlockType)
    (blk : Nat) (nv : Int) :
    (verity_handle_err v st t blk nv).evs = [] ∨
    (verity_handle_err v st t blk nv).evs = [Ev.uevent t blk] := by
  simp only [verity_handle_err]
  by_cases hc : 100 ≤ st.corrupted_errs
  · rw [if_pos hc]; left; rfl
  · rw [if_neg hc]
    right
    cases v.mode
    · rfl
    · rfl
    · simp only []
      split
      · rfl
      · split <;> rfl

/-- Filtering the events of verity_handle_err by any predicate that
rejects uevents yields nothing. -/
theorem verity_handle_err_filter (v : VerityCfg) (st : VState)
    (t : BlockType) (blk : Nat) (nv : Int) (p : Ev → Bool)
    (hp : ∀ t2 b2, p (Ev.uevent t2 b2) = false) :
    ((verity_handle_err v st t blk nv).evs.filter p) = [] := by
  rcases verity_handle_err_evs v st t blk nv with h | h
  · rw [h]; rfl
  · rw [h]; simp [hp]

/-- verity_handle_err emits no metadata-core events. -/
theorem verity_handle_err_filter_meta (v : VerityCfg) (st : VState)
    (t : BlockType) (blk : Nat) (nv : Int) :
    ((verity_handle_err v st t blk nv).evs.filter isMetaCore) = [] := by
  rcases verity_handle_err_evs v st t blk nv with h | h <;> rw [h] <;> rfl

/-- verity_handle_err emits no data-core events. -/
theorem verity_handle_err_filter_data (v : VerityCfg) (st : VState)
    (t : BlockType) (blk : Nat) (nv : Int) :
    ((verity_handle_err v st t blk nv).evs.filter isDataCore) = [] := by
  rcases verity_handle_err_evs v st t blk nv with h | h <;> rw [h] <;> rfl

/-- The meta-core trace of one verity_verify_level call is one of five
prefixes of the fixed fallback sequence: nothing, the primary hash
attempt, both hash attempts, both attempts then one FEC attempt, or both
attempts, one FEC attempt and one policy consultation on the same hash
block. -/
theorem verity_verify_level_trace (v : VerityCfg) (H : HashOracle)
    (env : LevelEnv) (st : VState) (block level : Nat) (skip : Bool)
    (want : List Nat) :
    (verity_verify_level v H env st block level skip want).evs.filter
        isMetaCore = [] ∨
    (verity_verify_level v H env st block level skip want).evs.filter
        isMetaCore = [Ev.hash BlockType.metadata Eng.sha2ce] ∨
    (verity_verify_level v H env st block level skip want).evs.filter
        isMetaCore =
      [Ev.hash BlockType.metadata Eng.sha2ce,
       Ev.hash BlockType.metadata Eng.sha256] ∨
    (∃ hb, (verity_verify_level v H env st block level skip want).evs.filter
        isMetaCore =
      [Ev.hash BlockType.metadata Eng.sha2ce,
       Ev.hash BlockType.metadata Eng.sha256,
       Ev.fec BlockType.metadata hb]) ∨
    (∃ hb, (verity_verify_level v H env st block level skip want).evs.filter
        isMetaCore =
      [Ev.hash BlockType.metadata Eng.sha2ce,
       Ev.hash BlockType.metadata Eng.sha256,
       Ev.fec BlockType.metadata hb,
       Ev.policy BlockType.metadata hb]) := by
  cases hbuf : env.buf with
  | error e =>
    left
    simp [verity_verify_level, hbuf, isMetaCore]
  | ok buf =>
    by_cases hv : buf.hash_verified
    · left
      simp [verity_verify_level, hbuf, hv, isMetaCore]
    · by_cases hs : skip
      · left
        simp [verity_verify_level, hbuf, hv, hs, isMetaCore]
      · cases hH1 : verity_hash_sel_sha v H buf.data 0 with
        | error e =>
          right; left
          simp [verity_verify_level, hbuf, hv, hs, hH1, isMetaCore]
        | ok d1 =>
          by_cases hd1 : d1 = want
          · right; left
            simp [verity_verify_level, hbuf, hv, hs, hH1, hd1, isMetaCore]
          · cases hH2 : verity_hash_sel_sha v H buf.data 1 with
            | error e =>
              right; right; left
              simp [verity_verify_level, hbuf, hv, hs, hH1, hd1, hH2,
                isMetaCore]
            | ok d2 =>
              by_cases hd2 : d2 = want
              · right; right; left
                simp [verity_verify_level, hbuf, hv, hs, hH1, hd1, hH2, hd2,
                  isMetaCore]
              · by_cases hfec : env.fec
                · right; right; right; left
                  refine ⟨(verity_hash_at_level v block level).1, ?_⟩
                  simp [verity_verify_level, hbuf, hv, hs, hH1, hd1, hH2,
                    hd2, hfec, isMetaCore]
                · right; right; right; right
                  refine ⟨(verity_hash_at_level v block level).1, ?_⟩
                  simp only [verity_verify_level, hbuf, hv, hs, hH1, hd1,
                    hH2, hd2, hfec]
                  repeat' split
                  all_goals
                    simp_all [List.filter_append, isMetaCore,
                      verity_handle_err_filter_meta]

end DMVerity

namespace DMVerity

/-- A verity_verify_level call emits no data-core events. -/
theorem verity_verify_level_no_data (v : VerityCfg) (H : HashOracle)
    (env : LevelEnv) (st : VState) (block level : Nat) (skip : Bool)
    (want : List Nat) :
    (verity_verify_level v H env st block level skip want).evs.filter
      isDataCore = [] := by
  simp only [verity_verify_level]
  repeat' split
  all_goals
    simp [isDataCore, List.filter_append, verity_handle_err_filter_data]

/-- The chain loop of verity_hash_for_block emits no data-core events. -/
theorem verify_chain_no_data (v : VerityCfg) (H : HashOracle)
    (lv : Nat → LevelEnv) (block : Nat) :
    ∀ (i : Nat) (digest : List Nat) (st : VState),
      (verify_chain v H lv block i digest st).2.2.2.filter isDataCore
        = [] := by
  intro i
  induction i with
  | zero => intro digest st; rfl
  | succ n ih =>
    intro digest st
    simp only [verify_chain]
    split
    · exact verity_verify_level_no_data v H (lv n) st block n false digest
    · simp [List.filter_append, verity_verify_level_no_data, ih]

/-- A verity_hash_for_block call emits no data-core events. -/
theorem verity_hash_for_block_no_data (v : VerityCfg) (H : HashOracle)
    (lv : Nat → LevelEnv) (st : VState) (block : Nat)
    (digest0 : List Nat) :
    (verity_hash_for_block v H lv st block digest0).evs.filter isDataCore
      = [] := by
  simp only [verity_hash_for_block]
  repeat' split
  all_goals
    simp [List.filter_append, verity_verify_level_no_data,
      verify_chain_no_data]

end DMVerity

namespace DMVerity

/-- The data-core trace of one data-block verification inside
verity_verify_io is one of five prefixes of the fixed fallback sequence:
nothing (zero shortcut or early exit), the primary hash attempt, both
hash attempts, both attempts then one FEC attempt, or both attempts, one
FEC attempt and one policy consultation on this data block. -/
theorem verity_verify_io_block_trace (v : VerityCfg) (H : HashOracle)
    (env : IoBlockEnv) (st : VState) (block : Nat)
    (dataContent : List Nat) (iter : Nat) :
    (verity_verify_io_block v H env st block dataContent iter).evs.filter
        isDataCore = [] ∨
    (verity_verify_io_block v H env st block dataContent iter).evs.filter
        isDataCore = [Ev.hash BlockType.data Eng.sha2ce] ∨
    (verity_verify_io_block v H env st block dataContent iter).evs.filter
        isDataCore =
      [Ev.hash BlockType.data Eng.sha2ce,
       Ev.hash BlockType.data Eng.sha256] ∨
    (verity_verify_io_block v H env st block dataContent iter).evs.filter
        isDataCore =
      [Ev.hash BlockType.data Eng.sha2ce,
       Ev.hash BlockType.data Eng.sha256,
       Ev.fec BlockType.data block] ∨
    (verity_verify_io_block v H env st block dataContent iter).evs.filter
        isDataCore =
      [Ev.hash BlockType.data Eng.sha2ce,
       Ev.hash BlockType.data Eng.sha256,
       Ev.fec BlockType.data block,
       Ev.policy BlockType.data block] := by
  simp only [verity_verify_io_block]
  repeat' split
  all_goals
    simp [List.filter_append, isDataCore, verity_hash_for_block_no_data,
      verity_handle_err_filter_data]

/-- C2: per single block verification the fallback sequence is fixed.  For
a hash-tree block inside verity_verify_level, the trace of digest
computations, FEC attempts and policy consultations over that block is a
prefix of primary hash, fallback hash, one FEC attempt, one policy
consultation, so the block is hashed at most twice (the fallback engine
only after a first mismatch), FEC repair is invoked at most once, and a
policy consultation (the declaration of unrepairable corruption) happens
only after the full sequence.  The same holds for a data block inside
verity_verify_io, counting only the events that act on the data block
itself. -/
theorem C2_fallback_sequence :
    (∀ (v : VerityCfg) (H : HashOracle) (env : LevelEnv) (st : VState)
       (block level : Nat) (skip : Bool) (want : List Nat),
      (verity_verify_level v H env st block level skip want).evs.filter
          isMetaCore = [] ∨
      (verity_verify_level v H env st block level skip want).evs.filter
          isMetaCore = [Ev.hash BlockType.metadata Eng.sha2ce] ∨
      (verity_verify_level v H env st block level skip want).evs.filter
          isMetaCore =
        [Ev.hash BlockType.metadata Eng.sha2ce,
         Ev.hash BlockType.metadata Eng.sha256] ∨
      (∃ hb, (verity_verify_level v H env st block level skip
          want).evs.filter isMetaCore =
        [Ev.hash BlockType.metadata Eng.sha2ce,
         Ev.hash BlockType.metadata Eng.sha256,
         Ev.fec BlockType.metadata hb]) ∨
      (∃ hb, (verity_verify_level v H env st block level skip
          want).evs.filter isMetaCore =
        [Ev.hash BlockType.metadata Eng.sha2ce,
         Ev.hash BlockType.metadata Eng.sha256,
         Ev.fec BlockType.metadata hb,
         Ev.policy BlockType.metadata hb])) ∧
    (∀ (v : VerityCfg) (H : HashOracle) (env : IoBlockEnv) (st : VState)
       (block : Nat) (dataContent : List Nat) (iter : Nat),
      (verity_verify_io_block v H env st block dataContent
          iter).evs.filter isDataCore = [] ∨
      (verity_verify_io_block v H env st block dataContent
          iter).evs.filter isDataCore =
        [Ev.hash BlockType.data Eng.sha2ce] ∨
      (verity_verify_io_block v H env st block dataContent
          iter).evs.filter isDataCore =
        [Ev.hash BlockType.data Eng.sha2ce,
         Ev.hash BlockType.data Eng.sha256] ∨
      (verity_verify_io_block v H env st block dataContent
          iter).evs.filter isDataCore =
        [Ev.hash BlockType.data Eng.sha2ce,
         Ev.hash BlockType.data Eng.sha256,
         Ev.fec BlockType.data block] ∨
      (verity_verify_io_block v H env st block dataContent
          iter).evs.filter isDataCore =
        [Ev.hash BlockType.data Eng.sha2ce,
         Ev.hash BlockType.data Eng.sha256,
         Ev.fec BlockType.data block,
         Ev.policy BlockType.data block]) :=
  ⟨fun v H env st block level skip want =>
      verity_verify_level_trace v H env st block level skip want,
   fun v H env st block dataContent iter =>
      verity_verify_io_block_trace v H env st block dataContent iter⟩

end DMVerity

namespace DMVerity

/-- C4: when the buffer is unverified, both hash-engine attempts on a
hash-tree block mismatch the inherited digest, FEC repair fails, and the
corruption policy continues (logging mode below the error cap),
verity_verify_level still returns 0: it copies the digest stored at the
computed in-block offset into the want-digest buffer while leaving the
buffer's hash_verified flag unset. -/
theorem C4_policy_continue_level (v : VerityCfg) (H : HashOracle)
    (env : LevelEnv) (st : VState) (block level : Nat) (want : List Nat)
    (buf : Buf) (d1 d2 : List Nat)
    (hbuf : env.buf = Except.ok buf)
    (hv : buf.hash_verified = false)
    (hH1 : verity_hash_sel_sha v H buf.data 0 = Except.ok d1)
    (hd1 : d1 ≠ want)
    (hH2 : verity_hash_sel_sha v H buf.data 1 = Except.ok d2)
    (hd2 : d2 ≠ want)
    (hfec : env.fec = false)
    (hm : v.mode = Mode.logging)
    (hcnt : st.corrupted_errs < 100) :
    (verity_verify_level v H env st block level false want).r = 0 ∧
    (verity_verify_level v H env st block level false want).want =
      storedDigest v buf.data (verity_hash_at_level v block level).2 ∧
    (verity_verify_level v H env st block level false want).verified
      = false := by
  have hret : (verity_handle_err v st BlockType.metadata
      (verity_hash_at_level v block level).1 env.nv).ret = 0 := by
    unfold verity_handle_err
    rw [hm]
    rw [if_neg (by simp; omega)]
  simp only [verity_verify_level, hbuf, hv, hH1, hd1, hH2, hd2, hfec]
  simp [hret]

/-- Witness for C4_policy_continue_level on a concrete double-mismatch
unrepairable scenario in logging mode. -/
theorem C4_policy_continue_level_witness :
    (verity_verify_level cfgV oracleMismatch envU st0 0 0 false [0]).r
      = 0 ∧
    (verity_verify_level cfgV oracleMismatch envU st0 0 0 false [0]).want =
      storedDigest cfgV bufU.data (verity_hash_at_level cfgV 0 0).2 ∧
    (verity_verify_level cfgV oracleMismatch envU st0 0 0 false
      [0]).verified = false :=
  C4_policy_continue_level cfgV oracleMismatch envU st0 0 0 [0] bufU [1]
    [2] rfl rfl rfl (by decide) rfl (by decide) rfl rfl (by decide)

/-- C9: the hash_verified flag is monotonic.  A freshly allocated buffer
carries hash_verified = 0; if the buffer handed to verity_verify_level is
already verified, it is still verified afterwards (no path resets the
flag); and the flag can only end up set when it already was, when one of
the two engine digests matched the inherited digest, or when FEC repair
succeeded — the policy-continue path leaves it unset. -/
theorem C9_hash_verified_monotonic (v : VerityCfg) (H : HashOracle)
    (env : LevelEnv) (st : VState) (block level : Nat) (skip : Bool)
    (want : List Nat) (buf : Buf) (hbuf : env.buf = Except.ok buf) :
    (∀ d : List Nat, (dm_bufio_alloc_callback d).hash_verified = false) ∧
    (buf.hash_verified = true →
      (verity_verify_level v H env st block level skip want).verified
        = true) ∧
    ((verity_verify_level v H env st block level skip want).verified = true →
      buf.hash_verified = true ∨
      verity_hash_sel_sha v H buf.data 0 = Except.ok want ∨
      verity_hash_sel_sha v H buf.data 1 = Except.ok want ∨
      env.fec = true) := by
  refine ⟨fun d => rfl, ?_, ?_⟩
  · intro h
    simp [verity_verify_level, hbuf, h]
  · simp only [verity_verify_level, hbuf]
    repeat' split
    all_goals intro hcon
    all_goals simp_all

/-- Witness for C9_hash_verified_monotonic on a concrete unverified
buffer. -/
theorem C9_hash_verified_monotonic_witness :
    (∀ d : List Nat, (dm_bufio_alloc_callback d).hash_verified = false) ∧
    (bufU.hash_verified = true →
      (verity_verify_level cfgV oracleMismatch envU st0 0 0 false
        [0]).verified = true) ∧
    ((verity_verify_level cfgV oracleMismatch envU st0 0 0 false
        [0]).verified = true →
      bufU.hash_verified = true ∨
      verity_hash_sel_sha cfgV oracleMismatch bufU.data 0 = Except.ok [0] ∨
      verity_hash_sel_sha cfgV oracleMismatch bufU.data 1 = Except.ok [0] ∨
      envU.fec = true) :=
  C9_hash_verified_monotonic cfgV oracleMismatch envU st0 0 0 false [0]
    bufU rfl

/-- C5: in the zero-digest shortcut of verity_verify_io the data iterator
is advanced, contrary to the claim that it is not consumed: on a concrete
zero-block request starting with io->iter at byte 0, the block completes
with return 0, all-zero output and no data-core events, yet io->iter ends
at byte 4 (one data block further). -/
theorem C5_zero_block_counterexample :
    (verity_verify_io_block cfgLogging oracle0 ioEnv0 st0 0 [1, 2, 3, 4]
      0).r = 0 ∧
    (verity_verify_io_block cfgLogging oracle0 ioEnv0 st0 0 [1, 2, 3, 4]
      0).data = [0, 0, 0, 0] ∧
    (verity_verify_io_block cfgLogging oracle0 ioEnv0 st0 0 [1, 2, 3, 4]
      0).evs.filter isDataCore = [] ∧
    (verity_verify_io_block cfgLogging oracle0 ioEnv0 st0 0 [1, 2, 3, 4]
      0).iter ≠ 0 := by
  refine ⟨rfl, rfl, rfl, by decide⟩

/-- C5 (amended): for every data block whose expected digest equals the
zero-block digest, verity_verify_io zero-fills the block's worth of output
bytes and completes the block with no hashing of the data and no read of
the data bytes (the outcome is independent of dataContent), while the
data iterator is advanced by one block size past the zero-filled range. -/
theorem C5_zero_block (v : VerityCfg) (H : HashOracle) (env : IoBlockEnv)
    (st : VState) (block : Nat) (dataContent : List Nat) (iter : Nat)
    (h0 : (verity_hash_for_block v H (env.lv 0) st block
      (List.replicate v.digest_size 0)).r = 0)
    (hz : (verity_hash_for_block v H (env.lv 0) st block
      (List.replicate v.digest_size 0)).is_zero = true) :
    verity_verify_io_block v H env st block dataContent iter =
      ⟨0,
       (verity_hash_for_block v H (env.lv 0) st block
         (List.replicate v.digest_size 0)).st,
       List.replicate (blockSize v) 0, iter + blockSize v,
       (verity_hash_for_block v H (env.lv 0) st block
         (List.replicate v.digest_size 0)).evs⟩ ∧
    (verity_verify_io_block v H env st block dataContent iter).evs.filter
      isDataCore = [] := by
  have hmain : verity_verify_io_block v H env st block dataContent iter =
      ⟨0,
       (verity_hash_for_block v H (env.lv 0) st block
         (List.replicate v.digest_size 0)).st,
       List.replicate (blockSize v) 0, iter + blockSize v,
       (verity_hash_for_block v H (env.lv 0) st block
         (List.replicate v.digest_size 0)).evs⟩ := by
    simp only [verity_verify_io_block]
    rw [if_neg (by rw [h0]; omega), if_pos hz]
  refine ⟨hmain, ?_⟩
  rw [hmain]
  exact verity_hash_for_block_no_data v H (env.lv 0) st block
    (List.replicate v.digest_size 0)

/-- Witness for C5_zero_block on a concrete zero block with the iterator
starting at byte 8. -/
theorem C5_zero_block_witness :
    (verity_hash_for_block cfgLogging oracle0 (ioEnv0.lv 0) st0 3
      (List.replicate cfgLogging.digest_size 0)).r = 0 ∧
    (verity_hash_for_block cfgLogging oracle0 (ioEnv0.lv 0) st0 3
      (List.replicate cfgLogging.digest_size 0)).is_zero = true ∧
    verity_verify_io_block cfgLogging oracle0 ioEnv0 st0 3 [9, 9, 9, 9] 8 =
      ⟨0,
       (verity_hash_for_block cfgLogging oracle0 (ioEnv0.lv 0) st0 3
         (List.replicate cfgLogging.digest_size 0)).st,
       List.replicate (blockSize cfgLogging) 0, 8 + blockSize cfgLogging,
       (verity_hash_for_block cfgLogging oracle0 (ioEnv0.lv 0) st0 3
         (List.replicate cfgLogging.digest_size 0)).evs⟩ :=
  ⟨rfl, rfl, (C5_zero_block cfgLogging oracle0 ioEnv0 st0 3 [9, 9, 9, 9] 8
    rfl rfl).1⟩

end DMVerity
